import Mathlib

set_option autoImplicit false

/-!
Shallow embedding of the wind-forecast pipeline.

The definitions below are translated from the repository's Python source:
* `windguru.py` / `src/windforecast/forecast.py` — series merge, wave join,
  daytime filter, dropna, per-sample classification (`build_df` / `_build_df`);
* `src/windforecast/render.py` — `_calculate_stars`, `_generate_daily_summary`,
  the kiteable / all-conditions view sets of `render_html`;
* `render.py` / `render2.py` — `stars_for` and the hour-bucket representative
  selection (`cell_html` / `main`);
* `src/windforecast/schemas.py` — `TimeWindow` validation.

Timestamps are modelled as natural numbers (only their linear order and
equality are used by the code).  Float quantities (knots, mm/h, metres,
degrees) are modelled as rationals; nullable columns are `Option` valued.
-/

/-- A row of the hourly (`dfh`) or 15-minute (`dfm`) frame built in
`build_df`: columns `time`, `wind_kn`, `gust_kn`, `dir_deg`, `precip`.
The raw payload arrays may contain nulls, hence `Option` fields. -/
structure Row where
  time : Nat
  wind_kn : Option ℚ
  gust_kn : Option ℚ
  dir_deg : Option ℚ
  precip : Option ℚ
deriving Repr, DecidableEq

/-- A row of the wave frame `dfw`: columns `time`, `wave_m`. -/
structure WaveRow where
  time : Nat
  wave_m : Option ℚ
deriving Repr, DecidableEq

/-- A row of the merged frame after `df.merge(dfw, on="time", how="left")`. -/
structure JoinedRow where
  time : Nat
  wind_kn : Option ℚ
  gust_kn : Option ℚ
  dir_deg : Option ℚ
  precip : Option ℚ
  wave_m : Option ℚ
deriving Repr, DecidableEq

/-- `dfm["time"].max()`: the maximum timestamp of a frame (meaningful when the
frame is non-empty, which is the only case the code evaluates it in). -/
def maxTime (M : List Row) : Nat :=
  (M.map Row.time).foldl max 0

/-- The merge step of `build_df`:
`pd.concat([dfm, dfh[dfh["time"] > dfm["time"].max()] if not dfm.empty else dfh])`. -/
def mergeSeries (M H : List Row) : List Row :=
  M ++ (if M.isEmpty then H else H.filter (fun r => decide (maxTime M < r.time)))

/-- `df.merge(dfw, on="time", how="left")`: each left row is paired with every
wave row of equal timestamp; a left row with no match keeps a null `wave_m`. -/
def leftJoinWave (rows : List Row) (W : List WaveRow) : List JoinedRow :=
  rows.flatMap fun r =>
    match W.filter (fun w => w.time == r.time) with
    | [] => [⟨r.time, r.wind_kn, r.gust_kn, r.dir_deg, r.precip, none⟩]
    | ws => ws.map fun w => ⟨r.time, r.wind_kn, r.gust_kn, r.dir_deg, r.precip, w.wave_m⟩

/-- `df.dropna(inplace=True)`: with no `subset`, pandas keeps exactly the rows
that have no null in any column (`freq` and `local_hour` are never null, so
the nullable columns are the five below, `wave_m` included). -/
def dropna (rows : List JoinedRow) : List JoinedRow :=
  rows.filter fun r =>
    r.wind_kn.isSome && r.gust_kn.isSome && r.dir_deg.isSome &&
      r.precip.isSome && r.wave_m.isSome

-- sanity checks on small concrete frames
example :
    mergeSeries [] [⟨3, some 1, some 1, some 1, some 1⟩] =
      [⟨3, some 1, some 1, some 1, some 1⟩] := by decide

example :
    mergeSeries [⟨2, some 1, some 1, some 1, some 1⟩]
        [⟨1, some 5, some 5, some 5, some 5⟩, ⟨4, some 6, some 6, some 6, some 6⟩] =
      [⟨2, some 1, some 1, some 1, some 1⟩, ⟨4, some 6, some 6, some 6, some 6⟩] := by decide

example :
    leftJoinWave [⟨1, some 1, some 1, some 1, some 1⟩] [⟨2, some 3⟩] =
      [⟨1, some 1, some 1, some 1, some 1, none⟩] := by rfl

example :
    dropna [⟨1, some 1, some 1, some 1, some 1, none⟩] = [] := by rfl

/-- The `"too much"` band label of the example configurations. -/
def tooMuchLbl : String := "too much"

/-- The `"good"` band label of the example configurations. -/
def goodLbl : String := "good"

/-- The `"light"` band label of the example configurations. -/
def lightLbl : String := "light"

/-- `dir_sector` configuration: `{start, end, wrap}` (`end` is spelled `end_`,
`end` being reserved in Lean). -/
structure DirSector where
  start : ℚ
  end_ : ℚ
  wrap : Bool
deriving Repr, DecidableEq

/-- `direction_in_sector` / `_direction_in_sector`: no sector means always in;
non-wrapping sectors test `start <= deg <= end`; wrapping sectors test
`deg >= start or deg <= end`. -/
def direction_in_sector (deg : ℚ) (sector : Option DirSector) : Bool :=
  match sector with
  | none => true
  | some s =>
    if !s.wrap then decide (s.start ≤ deg ∧ deg ≤ s.end_)
    else decide (s.start ≤ deg) || decide (deg ≤ s.end_)

/-- `classify_band` / `_classify_band`: first band whose threshold is at most
the speed, scanning the configured list in order; `"below"` if none. -/
def classify_band (bands : List (String × ℚ)) (kn : ℚ) : String :=
  match bands with
  | [] => "below"
  | (label, thr) :: rest => if thr ≤ kn then label else classify_band rest kn

/-- A merged row after `dropna` (all five data columns non-null). -/
structure CleanRow where
  time : Nat
  wind_kn : ℚ
  gust_kn : ℚ
  dir_deg : ℚ
  precip : ℚ
  wave_m : ℚ
deriving Repr, DecidableEq

/-- A fully classified row: the boolean and band columns `_build_df` adds. -/
structure ClassifiedRow where
  time : Nat
  wind_kn : ℚ
  gust_kn : ℚ
  dir_deg : ℚ
  precip : ℚ
  wave_m : ℚ
  dir_ok : Bool
  rain_ok : Bool
  speed_ok : Bool
  valid : Bool
  band : String
  kiteable : Bool
deriving Repr, DecidableEq

/-- The classification block of `_build_df` (`forecast.py` lines 197–204,
`windguru.py` lines 144–151): `dir_ok`, `rain_ok = precip <= rain_limit`,
`speed_ok = wind_kn >= 12.0`, `valid = dir_ok & rain_ok & speed_ok`,
`band`, and `kiteable = valid`. -/
def classifyRow (rain_limit : ℚ) (bands : List (String × ℚ))
    (sector : Option DirSector) (r : CleanRow) : ClassifiedRow :=
  let dOk := direction_in_sector r.dir_deg sector
  let rOk := decide (r.precip ≤ rain_limit)
  let sOk := decide (12 ≤ r.wind_kn)
  let v := dOk && rOk && sOk
  { time := r.time, wind_kn := r.wind_kn, gust_kn := r.gust_kn,
    dir_deg := r.dir_deg, precip := r.precip, wave_m := r.wave_m,
    dir_ok := dOk, rain_ok := rOk, speed_ok := sOk, valid := v,
    band := classify_band bands r.wind_kn, kiteable := v }

/-- A row of the JSON payload as the report renderers consume it (the fields
`stars_for` and the bucket selection read: `time`, `wind_kn`, `gust_kn`,
`kiteable`). -/
structure ReportRow where
  time : Nat
  wind_kn : ℚ
  gust_kn : ℚ
  kiteable : Bool
deriving Repr, DecidableEq

/-- `stars_for` of `render.py` / `render2.py`: 0 for a non-kiteable row, else
the fixed 25/20/17/15/12-knot cutoff scheme. -/
def stars_for (r : ReportRow) : Nat :=
  if !r.kiteable then 0
  else if 25 ≤ r.wind_kn then 5
  else if 20 ≤ r.wind_kn then 4
  else if 17 ≤ r.wind_kn then 3
  else if 15 ≤ r.wind_kn then 2
  else if 12 ≤ r.wind_kn then 1
  else 0

/-- The comparison `key(a) < key(b)` for the Python tuple key
`(stars_for(r), r["wind_kn"])`, compared lexicographically. -/
def keyLtB (a b : ReportRow) : Bool :=
  decide (stars_for a < stars_for b) ||
    (decide (stars_for a = stars_for b) && decide (a.wind_kn < b.wind_kn))

/-- One step of Python's `max` scan: the running best is replaced only when
the candidate's key is strictly larger. -/
def pickBest (best x : ReportRow) : ReportRow :=
  if keyLtB best x then x else best

/-- `max(rows, key=lambda r: (stars_for(r), r["wind_kn"]))` as in `cell_html`
and `main` of `render.py`: Python's `max` scans left to right and replaces the
running best only on a strictly larger key, so the first maximal element wins
(`none` models `max` of an empty sequence). -/
def bestRow : List ReportRow → Option ReportRow
  | [] => none
  | r :: rs => some (rs.foldl pickBest r)

/-- The `star_mapping` dict of `ReportRenderer._calculate_stars`, with
`dict.get(name, 0)` semantics for unknown labels. -/
def star_mapping (band_name : String) : Nat :=
  if band_name = "hardcore" then 3
  else if band_name = "insane" then 6
  else if band_name = "great" then 5
  else if band_name = "very good" then 4
  else if band_name = "good" then 3
  else if band_name = "ok" then 2
  else if band_name = "light" then 1
  else if band_name = "below" then 0
  else 0

/-- The band scan of `_calculate_stars`: first configured band whose threshold
is at most the speed gives its mapped rating; 0 if none matches. -/
def scanStars (bands : List (String × ℚ)) (wind_kn : ℚ) : Nat :=
  match bands with
  | [] => 0
  | (band_name, threshold) :: rest =>
    if threshold ≤ wind_kn then star_mapping band_name else scanStars rest wind_kn

/-- `ReportRenderer._calculate_stars`: 0 whenever the speed reaches
`bands[0][1]` (the "too much" guard), otherwise the band scan; `none` models
the `IndexError` an empty band table would raise at `bands[0]`. -/
def calculate_stars (bands : List (String × ℚ)) (wind_kn : ℚ) : Option Nat :=
  match bands with
  | [] => none
  | (_, thr0) :: _ =>
    if thr0 ≤ wind_kn then some 0 else some (scanStars bands wind_kn)

/-- One entry of a `days_data[day][spot]` list in
`ReportRenderer._generate_daily_summary` (only kiteable forecasts are
collected there). -/
structure SummaryEntry where
  wind_kn : ℚ
  gust_kn : ℚ
  stars : Nat
deriving Repr, DecidableEq

/-- `avg_wind = sum(f["wind_kn"] for f in forecasts) / len(forecasts)`. -/
def avg_wind (forecasts : List SummaryEntry) : Option ℚ :=
  match forecasts with
  | [] => none
  | _ => some ((forecasts.map SummaryEntry.wind_kn).sum / forecasts.length)

/-- `max_gust = max(f["gust_kn"] for f in forecasts)`: the gust statistic the
daily summary actually reports (`none` models `max` of an empty sequence). -/
def max_gust (forecasts : List SummaryEntry) : Option ℚ :=
  match forecasts.map SummaryEntry.gust_kn with
  | [] => none
  | g :: gs => some (gs.foldl max g)

/-- Modelled from the spec: the *average* gust across the kiteable hours, the
statistic §4.5's words prescribe for the per-day aggregate; stated here only
to compare against `max_gust`, the statistic the code computes. -/
def avg_gust_spec (forecasts : List SummaryEntry) : Option ℚ :=
  match forecasts with
  | [] => none
  | _ => some ((forecasts.map SummaryEntry.gust_kn).sum / forecasts.length)

/-- One spot's entry in the JSON payload (`{"spot": name, "rows": [...]}`). -/
structure SpotSeries where
  name : String
  rows : List ReportRow
deriving Repr, DecidableEq

/-- `all_hours = {row["time"] for spot in data["spots"] for row in spot["rows"]}`. -/
def allHoursList (d : List SpotSeries) : List Nat :=
  (d.flatMap fun s => s.rows.map ReportRow.time).dedup

/-- `all_forecasts[hour][spot]`: the dict built row by row keeps the last row
of a given timestamp for a spot. -/
def forecastAt (s : SpotSeries) (h : Nat) : Option ReportRow :=
  (s.rows.filter (fun r => r.time == h)).getLast?

/-- The spots recorded in `kiteable_forecasts[hour]` of `render_html`: spots
whose forecast entry at that hour is kiteable. -/
def kiteableSpotsAt (d : List SpotSeries) (h : Nat) : List String :=
  d.filterMap fun s =>
    match forecastAt s h with
    | some r => if r.kiteable then some s.name else none
    | none => none

/-- `kiteable_forecasts = {hour: spots for ... if spots}`: the hour set of the
kiteable view keeps exactly the hours with a non-empty kiteable spot dict. -/
def kiteableViewHours (d : List SpotSeries) : List Nat :=
  (allHoursList d).filter fun h => !(kiteableSpotsAt d h).isEmpty

/-- Whether a spot lands in `spot_kiteable_hours` for some day, i.e. has a
kiteable forecast entry at some hour of the horizon. -/
def spotHasKiteableHour (d : List SpotSeries) (s : SpotSeries) : Bool :=
  (allHoursList d).any fun h =>
    match forecastAt s h with
    | some r => r.kiteable
    | none => false

/-- `kiteable_spots = {spot for day_data in spot_kiteable_hours.values() ...}`:
the spot list of the kiteable view. -/
def kiteableViewSpots (d : List SpotSeries) : List String :=
  (d.filter (spotHasKiteableHour d)).map SpotSeries.name

/-- The all-conditions view's hour set: every hour present for any spot. -/
def allViewHours (d : List SpotSeries) : List Nat := allHoursList d

/-- The all-conditions view's spot list: `sorted(all_spots)` — every spot. -/
def allViewSpots (d : List SpotSeries) : List String := d.map SpotSeries.name

/-- `TimeWindow` validation (`schemas.py`): the `Field(ge=0, le=23)` range
checks on both hours plus `validate_window`, which raises exactly when
`day_end < day_start`. -/
def validateTimeWindow (day_start day_end : ℚ) : Bool :=
  decide (0 ≤ day_start) && decide (day_start ≤ 23) &&
    decide (0 ≤ day_end) && decide (day_end ≤ 23) &&
    !decide (day_end < day_start)

/-! ### Helper lemmas on `foldl max` -/

theorem foldl_max_eq_or_mem {α : Type} [LinearOrder α] :
    ∀ (l : List α) (a : α), l.foldl max a = a ∨ l.foldl max a ∈ l := by
  intro l
  induction l with
  | nil => intro a; exact Or.inl rfl
  | cons x xs ih =>
    intro a
    rcases ih (max a x) with h | h
    · rcases max_choice a x with hm | hm
      · exact Or.inl (by rw [List.foldl_cons, h, hm])
      · exact Or.inr (by rw [List.foldl_cons, h, hm]; exact List.mem_cons_self x xs)
    · exact Or.inr (List.mem_cons_of_mem x h)

theorem init_le_foldl_max {α : Type} [LinearOrder α] :
    ∀ (l : List α) (a : α), a ≤ l.foldl max a := by
  intro l
  induction l with
  | nil => intro a; exact le_refl a
  | cons x xs ih =>
    intro a
    exact le_trans (le_max_left a x) (ih (max a x))

theorem mem_le_foldl_max {α : Type} [LinearOrder α] :
    ∀ (l : List α) (a : α), ∀ x ∈ l, x ≤ l.foldl max a := by
  intro l
  induction l with
  | nil => intro a x hx; exact absurd hx (List.not_mem_nil x)
  | cons y ys ih =>
    intro a x hx
    rcases List.mem_cons.mp hx with h | h
    · subst h
      exact le_trans (le_max_right a x) (init_le_foldl_max ys (max a x))
    · exact ih (max a y) x h

/-! ### C7: the 12-knot speed floor -/

/-- C7: for every classified sample, wind strictly below 12 kn forces a false
kiteable verdict, whatever the sector, rain limit or band table. -/
theorem C7_speed_floor_forces_not_kiteable (rain_limit : ℚ)
    (bands : List (String × ℚ)) (sector : Option DirSector) (r : CleanRow)
    (h : r.wind_kn < 12) :
    (classifyRow rain_limit bands sector r).kiteable = false := by
  simp [classifyRow, not_le.mpr h]

theorem C7_witness :
    ((11:ℚ) < 12) ∧
      (classifyRow (1/2) [] none ⟨0, 11, 15, 90, 0, 1⟩).kiteable = false :=
  ⟨by norm_num,
    C7_speed_floor_forces_not_kiteable (1/2) [] none ⟨0, 11, 15, 90, 0, 1⟩ (by norm_num)⟩

/-! ### C8: extreme wind is rated 0 -/

/-- C8: for every band table satisfying the strictly-descending invariant and
every speed at or above the first band's threshold, `_calculate_stars`
returns 0. -/
theorem C8_extreme_wind_zero_stars (bands : List (String × ℚ)) (wind_kn : ℚ)
    (hdesc : List.Chain' (fun a b => b.2 < a.2) bands)
    (hne : bands ≠ [])
    (hhi : (bands.head hne).2 ≤ wind_kn) :
    calculate_stars bands wind_kn = some 0 := by
  cases bands with
  | nil => exact absurd rfl hne
  | cons b rest =>
    obtain ⟨label, thr⟩ := b
    simp only [List.head_cons] at hhi
    simp [calculate_stars, hhi]

theorem C8_witness :
    calculate_stars [(tooMuchLbl, 40), (goodLbl, 17), (lightLbl, 12)] 55 = some 0 :=
  C8_extreme_wind_zero_stars [(tooMuchLbl, 40), (goodLbl, 17), (lightLbl, 12)] 55
    (by norm_num) (by simp) (by norm_num)

/-! ### C10: the plain 5-star scheme is gated on the kiteable flag -/

/-- C10: `stars_for` returns 0 on every non-kiteable row regardless of wind,
and a positive rating is only ever assigned to kiteable rows. -/
theorem C10_stars_gated_on_kiteable (r : ReportRow) :
    (r.kiteable = false → stars_for r = 0) ∧
      (0 < stars_for r → r.kiteable = true) := by
  constructor
  · intro h
    simp [stars_for, h]
  · intro h
    by_contra hk
    have hfalse : r.kiteable = false := by
      cases hc : r.kiteable
      · rfl
      · exact absurd hc hk
    simp [stars_for, hfalse] at h

theorem C10_witness : stars_for ⟨0, 30, 35, false⟩ = 0 :=
  (C10_stars_gated_on_kiteable ⟨0, 30, 35, false⟩).1 rfl

/-! ### C9: daytime-window validation -/

/-- C9 counterexample: a window with `day_start = day_end = 10` satisfies
`day_end ≤ day_start`, yet `TimeWindow` validation accepts it (the validator
only raises on `day_end < day_start`), so such a configuration is not
rejected and does not satisfy `day_start < day_end`. -/
theorem C9_equal_window_accepted :
    validateTimeWindow 10 10 = true ∧ (10:ℚ) ≤ 10 ∧ ¬((10:ℚ) < 10) := by
  refine ⟨by decide, le_refl _, lt_irrefl _⟩

/-- C9 amended: validation accepts a window only if `day_start ≤ day_end`,
and (for in-range hours) rejects every window with `day_end < day_start`. -/
theorem C9_window_validation (day_start day_end : ℚ) :
    (validateTimeWindow day_start day_end = true → day_start ≤ day_end) ∧
      (0 ≤ day_start → day_start ≤ 23 → 0 ≤ day_end → day_end ≤ 23 →
        day_end < day_start → validateTimeWindow day_start day_end = false) := by
  constructor
  · intro hv
    simp only [validateTimeWindow, Bool.and_eq_true, Bool.not_eq_true',
      decide_eq_true_eq, decide_eq_false_iff_not] at hv
    exact le_of_not_lt hv.2
  · intro _ _ _ _ hlt
    simp [validateTimeWindow, hlt]

theorem C9_window_validation_witness :
    ((6:ℚ) ≤ 20) ∧ validateTimeWindow 20 8 = false :=
  ⟨(C9_window_validation 6 20).1 (by decide),
    (C9_window_validation 20 8).2 (by norm_num) (by norm_num) (by norm_num)
      (by norm_num) (by norm_num)⟩

/-! ### C2: the per-day gust statistic -/

/-- Two kiteable hours of one spot on one day, gusts 20 kn and 40 kn. -/
def c2Entries : List SummaryEntry := [⟨15, 20, 2⟩, ⟨15, 40, 2⟩]

/-- C2 counterexample: on gusts 20 and 40, the daily summary reports
`max_gust = 40`, which is not the average 30 the claim prescribes. -/
theorem C2_gust_statistic_is_not_average :
    max_gust c2Entries = some 40 ∧ avg_gust_spec c2Entries = some 30 ∧
      max_gust c2Entries ≠ avg_gust_spec c2Entries := by
  refine ⟨by norm_num [max_gust, c2Entries], by norm_num [avg_gust_spec, c2Entries], ?_⟩
  norm_num [max_gust, avg_gust_spec, c2Entries]

/-- C2 amended: for every spot-day with at least one kiteable hour, the gust
value the daily summary reports is the *maximum* gust across that spot's
kiteable hours of the day: it is one of the collected gusts and bounds them
all. -/
theorem C2_daily_gust_is_maximum (forecasts : List SummaryEntry) (g : ℚ)
    (h : max_gust forecasts = some g) :
    g ∈ forecasts.map SummaryEntry.gust_kn ∧
      ∀ x ∈ forecasts.map SummaryEntry.gust_kn, x ≤ g := by
  unfold max_gust at h
  rcases hm : forecasts.map SummaryEntry.gust_kn with _ | ⟨g0, gs⟩
  · rw [hm] at h; exact absurd h (by simp)
  · rw [hm] at h
    simp only [Option.some.injEq] at h
    subst h
    constructor
    · rcases foldl_max_eq_or_mem gs g0 with he | he
      · rw [he]; exact List.mem_cons_self g0 gs
      · exact List.mem_cons_of_mem g0 he
    · intro x hx
      rcases List.mem_cons.mp hx with hx | hx
      · subst hx; exact init_le_foldl_max gs x
      · exact mem_le_foldl_max gs g0 x hx

theorem C2_daily_gust_is_maximum_witness :
    (40:ℚ) ∈ c2Entries.map SummaryEntry.gust_kn ∧
      ∀ x ∈ c2Entries.map SummaryEntry.gust_kn, x ≤ 40 :=
  C2_daily_gust_is_maximum c2Entries 40 (by norm_num [max_gust, c2Entries])

/-! ### C1: the dropna step after the wave join -/

/-- A 15-minute merged sample (timestamp 735 = 12:15 in minutes) with every
required field present. -/
def c1Row : Row := ⟨735, some 15, some 20, some 90, some 0⟩

/-- The hourly wave frame around it: entries at 12:00 and 13:00 only, so no
wave row matches timestamp 735. -/
def c1Waves : List WaveRow := [⟨720, some (2/5)⟩, ⟨780, some (1/2)⟩]

/-- C1 (code bug): after the left wave join, the 12:15 sample has all four
required fields non-null and only `wave_m` null, yet `df.dropna()` (no
`subset`) removes it — contradicting the claim (and the function's own
`wave_m: None` serialization branch) that such samples are retained with a
null wave. -/
theorem C1_dropna_drops_wave_only_null :
    leftJoinWave [c1Row] c1Waves =
        [⟨735, some 15, some 20, some 90, some 0, none⟩] ∧
      dropna (leftJoinWave [c1Row] c1Waves) = [] := by
  constructor
  · rfl
  · rfl

/-! ### C3/C4: the series merge -/

theorem mem_time_le_maxTime (M : List Row) {m : Row} (hm : m ∈ M) :
    m.time ≤ maxTime M :=
  mem_le_foldl_max (M.map Row.time) 0 m.time (List.mem_map_of_mem Row.time hm)

theorem maxTime_attained (M : List Row) (hne : M ≠ []) :
    ∃ m ∈ M, maxTime M = m.time := by
  rcases foldl_max_eq_or_mem (M.map Row.time) 0 with h | h
  · rcases M with _ | ⟨m, rest⟩
    · exact absurd rfl hne
    · refine ⟨m, List.mem_cons_self m rest, ?_⟩
      have hle : m.time ≤ maxTime (m :: rest) :=
        mem_time_le_maxTime (m :: rest) (List.mem_cons_self m rest)
      have h0 : maxTime (m :: rest) = 0 := h
      omega
  · obtain ⟨m, hm, hmt⟩ := List.mem_map.mp h
    exact ⟨m, hm, hmt.symm⟩

/-- C3: the merged series is the 15-minute series followed by exactly the
hourly samples strictly past its maximum timestamp (equivalently, past every
15-minute timestamp), and an empty 15-minute series leaves the hourly series
unchanged. -/
theorem C3_merge_is_min15_then_later_hourly (M H : List Row) :
    (M = [] → mergeSeries M H = H) ∧
      (M ≠ [] →
        mergeSeries M H = M ++ H.filter (fun r => decide (maxTime M < r.time)) ∧
          ∀ r : Row, maxTime M < r.time ↔ ∀ m ∈ M, m.time < r.time) := by
  constructor
  · intro h
    subst h
    simp [mergeSeries]
  · intro hne
    constructor
    · simp [mergeSeries, List.isEmpty_iff, hne]
    · intro r
      constructor
      · intro hlt m hm
        exact lt_of_le_of_lt (mem_time_le_maxTime M hm) hlt
      · intro hall
        obtain ⟨m, hm, hmax⟩ := maxTime_attained M hne
        rw [hmax]
        exact hall m hm

/-- A sample with all required fields present, at timestamp `t`. -/
def rowAt (t : Nat) : Row := ⟨t, some 14, some 18, some 90, some 0⟩

theorem C3_merge_is_min15_then_later_hourly_witness :
    mergeSeries [] [rowAt 3] = [rowAt 3] ∧
      mergeSeries [rowAt 2] [rowAt 1, rowAt 4] =
        [rowAt 2] ++
          ([rowAt 1, rowAt 4].filter (fun r => decide (maxTime [rowAt 2] < r.time))) :=
  ⟨(C3_merge_is_min15_then_later_hourly [] [rowAt 3]).1 rfl,
    ((C3_merge_is_min15_then_later_hourly [rowAt 2] [rowAt 1, rowAt 4]).2
      (List.cons_ne_nil _ _)).1⟩

theorem filter_key_length_le_one {α : Type} (key : α → Nat) (t : Nat) :
    ∀ l : List α, (l.map key).Nodup →
      (l.filter (fun a => key a == t)).length ≤ 1 := by
  intro l
  induction l with
  | nil => intro _; simp
  | cons x xs ih =>
    intro h
    rw [List.map_cons, List.nodup_cons] at h
    by_cases hx : key x = t
    · rw [List.filter_cons_of_pos (by simpa using hx)]
      have hnil : xs.filter (fun a => key a == t) = [] := by
        apply List.filter_eq_nil_iff.mpr
        intro a ha hpa
        have hat : key a = t := by simpa using hpa
        exact h.1 (by rw [hx, ← hat] at *; exact List.mem_map_of_mem key ha)
      simp [hnil]
    · rw [List.filter_cons_of_neg (by simpa using hx)]
      exact ih h.2

theorem leftJoinWave_times (rows : List Row) (W : List WaveRow)
    (hW : (W.map WaveRow.time).Nodup) :
    (leftJoinWave rows W).map JoinedRow.time = rows.map Row.time := by
  induction rows with
  | nil => rfl
  | cons r rs ih =>
    have hlen := filter_key_length_le_one WaveRow.time r.time W hW
    rcases hf : W.filter (fun w => w.time == r.time) with _ | ⟨w, ws⟩
    · simp only [leftJoinWave, List.flatMap_cons, hf, List.map_append]
      simpa [leftJoinWave] using ih
    · have hws : ws = [] := by
        rw [hf] at hlen
        simpa using List.length_eq_zero.mp (by simpa using hlen)
      subst hws
      simp only [leftJoinWave, List.flatMap_cons, hf, List.map_append]
      simpa [leftJoinWave] using ih

theorem mergeSeries_times_nodup (M H : List Row)
    (hM : (M.map Row.time).Nodup) (hH : (H.map Row.time).Nodup) :
    ((mergeSeries M H).map Row.time).Nodup := by
  by_cases hMe : M = []
  · subst hMe
    simpa [mergeSeries]
  · unfold mergeSeries
    rw [if_neg (by simpa [List.isEmpty_iff] using hMe)]
    rw [List.map_append]
    refine List.Nodup.append hM ?_ ?_
    · exact hH.sublist
        (List.Sublist.map Row.time (List.filter_sublist H))
    · intro a haM haF
      obtain ⟨m, hm, hmt⟩ := List.mem_map.mp haM
      obtain ⟨r, hr, hrt⟩ := List.mem_map.mp haF
      have hrp := List.of_mem_filter hr
      have hmax : maxTime M < r.time := of_decide_eq_true hrp
      have hle : m.time ≤ maxTime M := mem_time_le_maxTime M hm
      rw [← hmt, ← hrt] at *
      omega

/-- C4: when the 15-minute, hourly and wave inputs each have pairwise-distinct
timestamps, the merged-and-wave-joined per-spot series has no two samples at
the same timestamp. -/
theorem C4_merged_series_timestamps_nodup (M H : List Row) (W : List WaveRow)
    (hM : (M.map Row.time).Nodup) (hH : (H.map Row.time).Nodup)
    (hW : (W.map WaveRow.time).Nodup) :
    ((leftJoinWave (mergeSeries M H) W).map JoinedRow.time).Nodup := by
  rw [leftJoinWave_times _ _ hW]
  exact mergeSeries_times_nodup M H hM hH

theorem C4_merged_series_timestamps_nodup_witness :
    ((leftJoinWave (mergeSeries [rowAt 2] [rowAt 1, rowAt 4])
        [⟨720, some (2/5)⟩, ⟨780, some (1/2)⟩]).map JoinedRow.time).Nodup :=
  C4_merged_series_timestamps_nodup [rowAt 2] [rowAt 1, rowAt 4]
    [⟨720, some (2/5)⟩, ⟨780, some (1/2)⟩] (by decide) (by decide) (by decide)

/-! ### C5: the hour-bucket representative -/

/-- The Python sort key `(stars_for(r), r["wind_kn"])` as a lexicographic
value. -/
def key (r : ReportRow) : Lex (Nat × ℚ) :=
  toLex (stars_for r, r.wind_kn)

theorem keyLtB_true_iff (a b : ReportRow) : keyLtB a b = true ↔ key a < key b := by
  simp [keyLtB, key, Prod.Lex.lt_iff]

theorem keyLtB_false_iff (a b : ReportRow) : keyLtB a b = false ↔ key b ≤ key a := by
  rw [← not_lt, ← keyLtB_true_iff]
  cases h : keyLtB a b <;> simp

theorem pick_foldl_mem :
    ∀ (l : List ReportRow) (b : ReportRow),
      l.foldl pickBest b = b ∨ l.foldl pickBest b ∈ l := by
  intro l
  induction l with
  | nil => intro b; exact Or.inl rfl
  | cons x xs ih =>
    intro b
    rw [List.foldl_cons]
    rcases ih (pickBest b x) with h | h
    · rw [h]
      unfold pickBest
      by_cases hk : keyLtB b x = true
      · rw [if_pos hk]
        exact Or.inr (List.mem_cons_self x xs)
      · rw [if_neg hk]
        exact Or.inl rfl
    · exact Or.inr (List.mem_cons_of_mem x h)

theorem pick_foldl_ub :
    ∀ (l : List ReportRow) (b : ReportRow),
      key b ≤ key (l.foldl pickBest b) ∧
        ∀ x ∈ l, key x ≤ key (l.foldl pickBest b) := by
  intro l
  induction l with
  | nil =>
    intro b
    exact ⟨le_refl _, by intro x hx; exact absurd hx (List.not_mem_nil x)⟩
  | cons y ys ih =>
    intro b
    rw [List.foldl_cons]
    obtain ⟨ihb, ihmem⟩ := ih (pickBest b y)
    have hstep : key b ≤ key (pickBest b y) ∧ key y ≤ key (pickBest b y) := by
      unfold pickBest
      cases hk : keyLtB b y
      · rw [if_neg (by simp)]
        exact ⟨le_refl _, (keyLtB_false_iff b y).mp hk⟩
      · rw [if_pos rfl]
        exact ⟨le_of_lt ((keyLtB_true_iff b y).mp hk), le_refl _⟩
    refine ⟨le_trans hstep.1 ihb, ?_⟩
    intro x hx
    rcases List.mem_cons.mp hx with hxy | hxys
    · subst hxy
      exact le_trans hstep.2 ihb
    · exact ihmem x hxys

theorem pick_foldl_earliest :
    ∀ (l : List ReportRow) (b : ReportRow),
      List.Pairwise (fun p q : ReportRow => p.time < q.time) (b :: l) →
      ∀ x, (x = b ∨ x ∈ l) → key x = key (l.foldl pickBest b) →
        (l.foldl pickBest b).time ≤ x.time := by
  intro l
  induction l with
  | nil =>
    intro b _ x hx _
    rcases hx with hx | hx
    · subst hx; exact le_refl _
    · exact absurd hx (List.not_mem_nil x)
  | cons y ys ih =>
    intro b hpw x hx hkey
    rw [List.foldl_cons] at hkey ⊢
    have hpw_tail : List.Pairwise (fun p q : ReportRow => p.time < q.time) (y :: ys) :=
      (List.pairwise_cons.mp hpw).2
    have hb_lt : ∀ q ∈ y :: ys, b.time < q.time := (List.pairwise_cons.mp hpw).1
    cases hk : keyLtB b y with
    | true =>
      have hby : key b < key y := (keyLtB_true_iff b y).mp hk
      have hpick : pickBest b y = y := by unfold pickBest; rw [if_pos hk]
      rw [hpick] at hkey ⊢
      rcases hx with hxb | hxm
      · subst hxb
        have hyc : key y ≤ key (ys.foldl pickBest y) := (pick_foldl_ub ys y).1
        have : key x < key (ys.foldl pickBest y) := lt_of_lt_of_le hby hyc
        exact absurd hkey (ne_of_lt this)
      · exact ih y hpw_tail x (List.mem_cons.mp hxm) hkey
    | false =>
      have hyb : key y ≤ key b := (keyLtB_false_iff b y).mp hk
      have hpick : pickBest b y = b := by unfold pickBest; rw [if_neg (by simp [hk])]
      rw [hpick] at hkey ⊢
      have hpw_bys : List.Pairwise (fun p q : ReportRow => p.time < q.time) (b :: ys) := by
        refine List.Pairwise.sublist ?_ hpw
        exact List.Sublist.cons₂ b (List.sublist_cons_self y ys)
      rcases hx with hxb | hxm
      · exact ih b hpw_bys x (Or.inl hxb) hkey
      · rcases List.mem_cons.mp hxm with hxy | hxys
        · subst hxy
          have hbc : key b ≤ key (ys.foldl pickBest b) := (pick_foldl_ub ys b).1
          have hkb : key b = key (ys.foldl pickBest b) := by
            apply le_antisymm hbc
            rw [← hkey]
            exact hyb
          have hcb : (ys.foldl pickBest b).time ≤ b.time :=
            ih b hpw_bys b (Or.inl rfl) hkb
          have hbx : b.time < x.time := hb_lt x (List.mem_cons_self x ys)
          omega
        · exact ih b hpw_bys x (Or.inr hxys) hkey

/-- C5: for a non-empty, time-ascending hour bucket, the selected
representative is a member with maximal star rating, maximal raw wind speed
among equally starred members, and the earliest timestamp among full ties. -/
theorem C5_representative_selection (rows : List ReportRow)
    (hne : rows ≠ [])
    (hsorted : List.Pairwise (fun p q : ReportRow => p.time < q.time) rows) :
    ∃ b, bestRow rows = some b ∧ b ∈ rows ∧
      (∀ r ∈ rows, stars_for r ≤ stars_for b) ∧
      (∀ r ∈ rows, stars_for r = stars_for b → r.wind_kn ≤ b.wind_kn) ∧
      (∀ r ∈ rows, stars_for r = stars_for b → r.wind_kn = b.wind_kn →
        b.time ≤ r.time) := by
  rcases rows with _ | ⟨r0, rs⟩
  · exact absurd rfl hne
  · refine ⟨rs.foldl pickBest r0, rfl, ?_, ?_, ?_, ?_⟩
    · rcases pick_foldl_mem rs r0 with h | h
      · rw [h]; exact List.mem_cons_self r0 rs
      · exact List.mem_cons_of_mem r0 h
    · intro r hr
      have hle : key r ≤ key (rs.foldl pickBest r0) := by
        rcases List.mem_cons.mp hr with h | h
        · subst h; exact (pick_foldl_ub rs r).1
        · exact (pick_foldl_ub rs r0).2 r h
      rcases (Prod.Lex.le_iff _ _).mp hle with h | h
      · exact le_of_lt h
      · exact le_of_eq h.1
    · intro r hr hstar
      have hle : key r ≤ key (rs.foldl pickBest r0) := by
        rcases List.mem_cons.mp hr with h | h
        · subst h; exact (pick_foldl_ub rs r).1
        · exact (pick_foldl_ub rs r0).2 r h
      rcases (Prod.Lex.le_iff _ _).mp hle with h | h
      · exact absurd hstar (ne_of_lt h)
      · exact h.2
    · intro r hr hstar hwind
      have hkeq : key r = key (rs.foldl pickBest r0) := by
        unfold key
        rw [hstar, hwind]
      exact pick_foldl_earliest rs r0 hsorted r (List.mem_cons.mp hr) hkeq

/-- The bucket of the claim's scenario: three kiteable 15-minute samples at
:00/:15/:30 with winds 14, 16 and 15 kn. -/
def bucket141615 : List ReportRow :=
  [⟨0, 14, 18, true⟩, ⟨15, 16, 20, true⟩, ⟨30, 15, 19, true⟩]

theorem C5_representative_selection_witness :
    (∃ b, bestRow bucket141615 = some b ∧ b ∈ bucket141615 ∧
        (∀ r ∈ bucket141615, stars_for r ≤ stars_for b) ∧
        (∀ r ∈ bucket141615, stars_for r = stars_for b → r.wind_kn ≤ b.wind_kn) ∧
        (∀ r ∈ bucket141615, stars_for r = stars_for b → r.wind_kn = b.wind_kn →
          b.time ≤ r.time)) ∧
      bestRow bucket141615 = some ⟨15, 16, 20, true⟩ :=
  ⟨C5_representative_selection bucket141615 (List.cons_ne_nil _ _) (by decide),
    by decide⟩

/-! ### C6: kiteable view and all-conditions view -/

theorem mem_of_len_le_one {α : Type} {l : List α} {r : α}
    (hr : r ∈ l) (hl : l.length ≤ 1) : l = [r] := by
  rcases l with _ | ⟨a, _ | ⟨b, t⟩⟩
  · exact absurd hr (List.not_mem_nil r)
  · rcases List.mem_singleton.mp hr with h
    rw [h]
  · simp at hl

theorem forecastAt_eq_some_iff {s : SpotSeries}
    (hs : (s.rows.map ReportRow.time).Nodup) (h : Nat) (r : ReportRow) :
    forecastAt s h = some r ↔ r ∈ s.rows ∧ r.time = h := by
  constructor
  · intro hf
    have hx : r ∈ (s.rows.filter (fun q => q.time == h)).getLast? := hf
    obtain ⟨hne, heq⟩ := List.mem_getLast?_eq_getLast hx
    have hmem : r ∈ s.rows.filter (fun q => q.time == h) := by
      rw [heq]
      exact List.getLast_mem hne
    refine ⟨List.mem_of_mem_filter hmem, ?_⟩
    simpa using List.of_mem_filter hmem
  · rintro ⟨hmem, ht⟩
    have hrf : r ∈ s.rows.filter (fun q => q.time == h) :=
      List.mem_filter.mpr ⟨hmem, by simpa using ht⟩
    have hone := filter_key_length_le_one ReportRow.time h s.rows hs
    unfold forecastAt
    rw [mem_of_len_le_one hrf hone]
    rfl

theorem mem_allHoursList_iff (d : List SpotSeries) (h : Nat) :
    h ∈ allHoursList d ↔ ∃ s ∈ d, ∃ r ∈ s.rows, r.time = h := by
  simp [allHoursList, List.mem_dedup, List.mem_flatMap, List.mem_map]

theorem kiteable_match_eq_true (o : Option ReportRow) :
    (match o with | some r => r.kiteable | none => false) = true ↔
      ∃ r, o = some r ∧ r.kiteable = true := by
  cases o <;> simp

theorem kiteable_entry_eq_some (s : SpotSeries) (o : Option ReportRow) (n : String) :
    (match o with
      | some r => if r.kiteable then some s.name else none
      | none => none) = some n ↔
      s.name = n ∧ ∃ r, o = some r ∧ r.kiteable = true := by
  cases o with
  | none => simp
  | some r => cases hk : r.kiteable <;> simp [hk]

theorem mem_kiteableSpotsAt_iff (d : List SpotSeries) (h : Nat) (n : String) :
    n ∈ kiteableSpotsAt d h ↔
      ∃ s ∈ d, s.name = n ∧ ∃ r, forecastAt s h = some r ∧ r.kiteable = true := by
  unfold kiteableSpotsAt
  rw [List.mem_filterMap]
  constructor
  · rintro ⟨s, hsd, hmatch⟩
    exact ⟨s, hsd, (kiteable_entry_eq_some s (forecastAt s h) n).mp hmatch⟩
  · rintro ⟨s, hsd, hrest⟩
    exact ⟨s, hsd, (kiteable_entry_eq_some s (forecastAt s h) n).mpr hrest⟩

/-- C6: under distinct per-spot timestamps, an hour is in the kiteable view
iff some spot has a kiteable sample at that hour, a spot is in the kiteable
view iff it has a kiteable sample somewhere in the horizon, and the
all-conditions view keeps every hour and every spot. -/
theorem C6_view_membership (d : List SpotSeries)
    (hnd : ∀ s ∈ d, (s.rows.map ReportRow.time).Nodup) :
    (∀ h : Nat, h ∈ kiteableViewHours d ↔
        ∃ s ∈ d, ∃ r ∈ s.rows, r.time = h ∧ r.kiteable = true) ∧
      (∀ n : String, n ∈ kiteableViewSpots d ↔
        ∃ s ∈ d, s.name = n ∧ ∃ r ∈ s.rows, r.kiteable = true) ∧
      (∀ h : Nat, h ∈ allViewHours d ↔ ∃ s ∈ d, ∃ r ∈ s.rows, r.time = h) ∧
      (∀ n : String, n ∈ allViewSpots d ↔ ∃ s ∈ d, s.name = n) := by
  refine ⟨?_, ?_, ?_, ?_⟩
  · intro h
    unfold kiteableViewHours
    rw [List.mem_filter]
    constructor
    · rintro ⟨hall, hne⟩
      have hne' : kiteableSpotsAt d h ≠ [] := by
        intro hnil
        rw [hnil] at hne
        simp at hne
      obtain ⟨n, hn⟩ : ∃ n, n ∈ kiteableSpotsAt d h := by
        rcases hkk : kiteableSpotsAt d h with _ | ⟨a, t⟩
        · exact absurd hkk hne'
        · exact ⟨a, List.mem_cons_self a t⟩
      obtain ⟨s, hsd, _, r, hf, hk⟩ := (mem_kiteableSpotsAt_iff d h n).mp hn
      obtain ⟨hmem, ht⟩ := (forecastAt_eq_some_iff (hnd s hsd) h r).mp hf
      exact ⟨s, hsd, r, hmem, ht, hk⟩
    · rintro ⟨s, hsd, r, hmem, ht, hk⟩
      refine ⟨(mem_allHoursList_iff d h).mpr ⟨s, hsd, r, hmem, ht⟩, ?_⟩
      have hf : forecastAt s h = some r :=
        (forecastAt_eq_some_iff (hnd s hsd) h r).mpr ⟨hmem, ht⟩
      have hn : s.name ∈ kiteableSpotsAt d h :=
        (mem_kiteableSpotsAt_iff d h s.name).mpr ⟨s, hsd, rfl, r, hf, hk⟩
      rcases hkk : kiteableSpotsAt d h with _ | ⟨a, t⟩
      · rw [hkk] at hn
        exact absurd hn (List.not_mem_nil _)
      · rfl
  · intro n
    unfold kiteableViewSpots
    rw [List.mem_map]
    constructor
    · rintro ⟨s, hsf, hname⟩
      have hsd : s ∈ d := List.mem_of_mem_filter hsf
      have hhas : spotHasKiteableHour d s = true := List.of_mem_filter hsf
      unfold spotHasKiteableHour at hhas
      obtain ⟨h, _, hmatch⟩ := List.any_eq_true.mp hhas
      obtain ⟨r, hf, hk⟩ := (kiteable_match_eq_true (forecastAt s h)).mp hmatch
      obtain ⟨hmem, _⟩ := (forecastAt_eq_some_iff (hnd s hsd) h r).mp hf
      exact ⟨s, hsd, hname, r, hmem, hk⟩
    · rintro ⟨s, hsd, hname, r, hmem, hk⟩
      refine ⟨s, List.mem_filter.mpr ⟨hsd, ?_⟩, hname⟩
      unfold spotHasKiteableHour
      apply List.any_eq_true.mpr
      refine ⟨r.time, (mem_allHoursList_iff d r.time).mpr ⟨s, hsd, r, hmem, rfl⟩, ?_⟩
      apply (kiteable_match_eq_true (forecastAt s r.time)).mpr
      exact ⟨r, (forecastAt_eq_some_iff (hnd s hsd) r.time r).mpr ⟨hmem, rfl⟩, hk⟩
  · intro h
    exact mem_allHoursList_iff d h
  · intro n
    unfold allViewSpots
    simp [List.mem_map]

/-- Name of the scenario spot with a kiteable 12:00 sample. -/
def alphaName : String := "Alpha"

/-- Name of the scenario spot with no kiteable sample at all. -/
def bravoName : String := "Bravo"

/-- The scenario payload: `Alpha` is kiteable at hour 12, `Bravo` never is. -/
def twoSpots : List SpotSeries :=
  [⟨alphaName, [⟨12, 18, 22, true⟩, ⟨13, 10, 12, false⟩]⟩,
    ⟨bravoName, [⟨12, 8, 10, false⟩, ⟨13, 9, 11, false⟩]⟩]

theorem C6_view_membership_witness :
    12 ∈ kiteableViewHours twoSpots ∧
      bravoName ∉ kiteableViewSpots twoSpots ∧
      alphaName ∈ kiteableViewSpots twoSpots ∧
      12 ∈ allViewHours twoSpots ∧
      bravoName ∈ allViewSpots twoSpots := by
  have hiff := C6_view_membership twoSpots (by decide)
  refine ⟨?_, ?_, ?_, ?_, ?_⟩
  · exact (hiff.1 12).mpr (by decide)
  · intro hmem
    have hx := (hiff.2.1 bravoName).mp hmem
    revert hx
    decide
  · exact (hiff.2.1 alphaName).mpr (by decide)
  · exact (hiff.2.2.1 12).mpr (by decide)
  · exact (hiff.2.2.2 bravoName).mpr (by decide)
